import Mathlib

/-!
Verification of the CSNewsCraper client core (src/src/App.tsx).

The development shallowly embeds the request-orchestration and
result-presentation workflow of the React client:

* the data model (`NewsItem`, the component state),
* the connectivity probe (`checkServer`),
* the scrape request controller (`scrapeNews`, split into its synchronous
  begin phase and its response-handling finish phase so that interleavings
  of two in-flight requests can be expressed),
* the derived view (`filteredAndSortedNews` = filter + stable sort).

JavaScript library behaviour used by the component is modelled explicitly:
`String.prototype.includes`, `String.prototype.toLowerCase`,
`String.prototype.localeCompare` (default-locale collation, restricted to
ASCII), `new Date(s).getTime()` (for ISO `YYYY-MM-DD` strings, any other
string yielding an invalid date / NaN), and `Array.prototype.sort` (a
stable comparator sort in which a NaN comparator result is coerced to +0,
per ECMA-262 SortCompare).
-/

/-- One scraped news item (interface `NewsItem` in App.tsx). -/
structure NewsItem where
  title : String
  author : String
  date : String
  source : String
  url : String
  imageUrl : Option String
deriving DecidableEq, Repr

/-- Connectivity status (`serverStatus` state in App.tsx). -/
inductive ServerStatus where
  | checking
  | online
  | offline
deriving DecidableEq, Repr

/-- The sort criterion (`sortBy` state in App.tsx). -/
inductive SortKey where
  | date
  | title
deriving DecidableEq, Repr

/-- The component state of `App` relevant to the core logic:
`url`, `news`, `loading`, `filterKeyword`, `sortBy`, `error`,
`serverStatus` (the `useState` hooks of App.tsx). -/
structure AppState where
  url : String
  news : List NewsItem
  loading : Bool
  filterKeyword : String
  sortKey : SortKey
  error : String
  serverStatus : ServerStatus
deriving DecidableEq, Repr

/-- The shape of an axios failure as probed by the catch-block of
`scrapeNews` (interface `ApiError` in App.tsx): `response` is `some d`
when the service answered with a non-2xx status, where `d` is the value
of the optional chain `response.data?.error`; `request` is true when a
request object exists (the request was sent but no response arrived);
`message` is the underlying failure description. -/
structure ApiError where
  response : Option (Option String)
  request : Bool
  message : String
deriving DecidableEq, Repr

/-- The remote outcome of one issued scrape request: either a response
whose body optionally carries a `news` array (`ok`), or an axios
failure (`err`). -/
inductive ScrapeOutcome where
  | ok (news : Option (List NewsItem))
  | err (e : ApiError)
deriving DecidableEq, Repr

/-! ### JavaScript string and date primitives -/

/-- `hay.includes(nee)` on JavaScript strings: `nee` occurs as a
contiguous substring of `hay` (always true for the empty needle). -/
def jsIncludes (hay nee : String) : Bool :=
  (List.range (hay.data.length + 1)).any fun i => nee.data.isPrefixOf (hay.data.drop i)

/-- `s.toLowerCase()` restricted to ASCII strings, where it agrees with
`Char.toLower` applied characterwise. -/
def jsToLower (s : String) : String := ⟨s.data.map Char.toLower⟩

/-- Primary collation key of `localeCompare`: the case-folded character
sequence. -/
def pKey (s : String) : List Char := s.data.map Char.toLower

/-- Case (tertiary) collation key of `localeCompare`: in the default
locale lowercase sorts before uppercase at each position. -/
def cKey (s : String) : List Nat := s.data.map fun c => if c.isUpper then 1 else 0

/-- Modelled `a.localeCompare(b)` under the default locale, restricted to
ASCII strings: characters are compared case-insensitively first
(primary strength), with ties broken by case, lowercase first. -/
def localeCompare (a b : String) : Int :=
  if pKey a < pKey b then -1
  else if pKey b < pKey a then 1
  else if cKey a < cKey b then -1
  else if cKey b < cKey a then 1
  else 0

/-- Decimal value of an ASCII digit. -/
def digitVal (c : Char) : Nat := c.toNat - 48

/-- Days from 1970-01-01 (UTC) to the civil date `y-m-d`, for a positive
year (the standard days-from-civil computation used by date libraries);
the result is negative for dates before the epoch. -/
def daysFromCivil (y m d : Nat) : Int :=
  let yAdj : Nat := if m ≤ 2 then y - 1 else y
  let era : Nat := yAdj / 400
  let yoe : Nat := yAdj - era * 400
  let mp : Nat := (m + 9) % 12
  let doy : Nat := (153 * mp + 2) / 5 + d - 1
  let doe : Nat := yoe * 365 + yoe / 4 - yoe / 100 + doy
  (era * 146097 + doe : Int) - 719468

/-- Number of days in month `m` of year `y` (Gregorian). -/
def daysInMonth (y m : Nat) : Nat :=
  if m = 2 then
    if y % 4 = 0 ∧ (y % 100 ≠ 0 ∨ y % 400 = 0) then 29 else 28
  else if m = 4 ∨ m = 6 ∨ m = 9 ∨ m = 11 then 30
  else 31

/-- Modelled ISO date-only parsing (`YYYY-MM-DD`), the date format
exercised by this repository's data: yields the year, month and day when
the string is a well-formed, in-range calendar date and `none`
otherwise. -/
def parseISODate (s : String) : Option (Nat × Nat × Nat) :=
  match s.data with
  | [y1, y2, y3, y4, s1, m1, m2, s2, d1, d2] =>
    if s1 = '-' ∧ s2 = '-' ∧ y1.isDigit ∧ y2.isDigit ∧ y3.isDigit ∧ y4.isDigit ∧
        m1.isDigit ∧ m2.isDigit ∧ d1.isDigit ∧ d2.isDigit then
      let y := ((digitVal y1 * 10 + digitVal y2) * 10 + digitVal y3) * 10 + digitVal y4
      let m := digitVal m1 * 10 + digitVal m2
      let d := digitVal d1 * 10 + digitVal d2
      if 1 ≤ m ∧ m ≤ 12 ∧ 1 ≤ d ∧ d ≤ daysInMonth y m then some (y, m, d) else none
    else none
  | _ => none

/-- Modelled `new Date(s).getTime()`: for an ISO `YYYY-MM-DD` string the
milliseconds since the epoch of UTC midnight of that date (ECMA-262
parses date-only ISO forms as UTC); for any string that is not a
well-formed date the result is NaN, represented as `none`. -/
def jsGetTime (s : String) : Option Int :=
  (parseISODate s).map fun ymd => 86400000 * daysFromCivil ymd.1 ymd.2.1 ymd.2.2

/-! ### A stable comparator sort (`Array.prototype.sort`)

ECMA-262 requires `Array.prototype.sort` to be stable; for a consistent
comparator every stable sort produces the same sequence, so the model
uses a stable insertion sort.  A comparator result that is NaN is coerced
to +0 by SortCompare; the NaN case is folded into the comparator itself
(`newsCompare` below), which is faithful because the sort consumes the
comparator only through sign tests. -/

/-- Stable insertion of `x` into `l`: `x` is placed before the first `y`
with `cmp x y ≤ 0`, hence after any earlier element comparing equal. -/
def jsInsert (cmp : α → α → Int) (x : α) : List α → List α
  | [] => [x]
  | y :: ys => if cmp x y ≤ 0 then x :: y :: ys else y :: jsInsert cmp x ys

/-- Stable comparator sort modelling `Array.prototype.sort(cmp)`. -/
def jsSort (cmp : α → α → Int) : List α → List α
  | [] => []
  | x :: xs => jsInsert cmp x (jsSort cmp xs)

/-! ### The derived view (`filteredAndSortedNews`) -/

/-- The filter predicate of `filteredAndSortedNews`: an item is retained
iff the keyword is empty, or occurs case-insensitively in the title, or
in the author. -/
def keepItem (filterKeyword : String) (item : NewsItem) : Bool :=
  filterKeyword = ""
    || jsIncludes (jsToLower item.title) (jsToLower filterKeyword)
    || jsIncludes (jsToLower item.author) (jsToLower filterKeyword)

/-- The comparator of `filteredAndSortedNews`:
for `date`, `new Date(b.date).getTime() - new Date(a.date).getTime()`
(descending), where a NaN operand makes the whole comparison NaN, coerced
to 0 by SortCompare; for `title`, `a.title.localeCompare(b.title)`
(ascending). -/
def newsCompare (sortKey : SortKey) (a b : NewsItem) : Int :=
  match sortKey with
  | .date =>
    match jsGetTime b.date, jsGetTime a.date with
    | some tb, some ta => tb - ta
    | _, _ => 0
  | .title => localeCompare a.title b.title

/-- `filteredAndSortedNews` of App.tsx: filter by keyword, then sort by
the selected key. -/
def filteredAndSortedNews (news : List NewsItem) (filterKeyword : String)
    (sortKey : SortKey) : List NewsItem :=
  jsSort (newsCompare sortKey) (news.filter (keepItem filterKeyword))

/-! ### The connectivity probe and the scrape request controller -/

/-- The error message set by input validation. -/
def validationMsg : String := "Please enter a website URL"

/-- The error message for an empty or absent `news` array. -/
def noNewsMsg : String :=
  "No news articles found. The website might use a different structure or dynamic loading."

/-- The fallback message when an error response body lacks an `error`
field (or it is empty, which is falsy in JavaScript). -/
def scrapeFailMsg : String := "Failed to scrape news. Please try a different URL."

/-- The message when the request was sent but no response arrived. -/
def noResponseMsg : String := "No response from server. Please make sure the server is running."

/-- The message surfaced when the connectivity probe fails. -/
def offlineMsg : String :=
  "Server is offline. Please make sure the server is running on port 5000."

/-- `checkServer` of App.tsx: on probe success set `serverStatus` to
`online`; on failure set it to `offline` and surface `offlineMsg`. -/
def checkServer (st : AppState) (probeSuccess : Bool) : AppState :=
  if probeSuccess then { st with serverStatus := .online }
  else { st with serverStatus := .offline, error := offlineMsg }

/-- The synchronous begin phase of `scrapeNews`, up to the `await`:
if `url` is falsy (the empty string) set the validation error and return
without issuing a request; otherwise set `loading`, clear `error`, clear
`news` and issue the request.  The boolean records whether a network
call is made. -/
def scrapeBegin (st : AppState) : AppState × Bool :=
  if st.url = "" then ({ st with error := validationMsg }, false)
  else ({ st with loading := true, error := "", news := [] }, true)

/-- The response-handling phase of `scrapeNews` (the code after the
`await`: the `then` branch, the `catch` classification, and the `finally`
that clears `loading`).  It is applied to whatever the component state is
when the response arrives; nothing in it identifies which request the
outcome belongs to (the code has no request token). -/
def scrapeFinish (st : AppState) (out : ScrapeOutcome) : AppState :=
  let st' :=
    match out with
    | .ok newsField =>
      match newsField with
      | some l => if l.length > 0 then { st with news := l } else { st with error := noNewsMsg }
      | none => { st with error := noNewsMsg }
    | .err e =>
      match e.response with
      | some dataErr =>
        { st with error := match dataErr with
            | some msg => if msg = "" then scrapeFailMsg else msg
            | none => scrapeFailMsg }
      | none =>
        if e.request then { st with error := noResponseMsg }
        else { st with error := "Error: " ++ e.message }
  { st' with loading := false }

/-- `scrapeNews` of App.tsx as a whole, for a single request whose remote
outcome is `out`: the begin phase followed, when a request was issued, by
the response-handling phase.  The boolean records whether a network call
was made. -/
def scrapeNews (st : AppState) (out : ScrapeOutcome) : AppState × Bool :=
  let (st', go) := scrapeBegin st
  if go then (scrapeFinish st' out, true) else (st', false)

/-- `setUrl` (the URL text-field change handler). -/
def setUrl (st : AppState) (u : String) : AppState := { st with url := u }

/-- A convenient initial state: the `useState` initial values of App.tsx. -/
def initialState : AppState :=
  { url := "", news := [], loading := false, filterKeyword := "",
    sortKey := .date, error := "", serverStatus := .checking }

/-! ### General lemmas about the stable sort -/

theorem jsInsert_perm (cmp : α → α → Int) (x : α) (l : List α) :
    (jsInsert cmp x l).Perm (x :: l) := by
  induction l with
  | nil => exact List.Perm.refl _
  | cons y ys ih =>
    rw [jsInsert]
    split
    · exact List.Perm.refl _
    · exact (ih.cons y).trans (List.Perm.swap x y ys)

theorem jsSort_perm (cmp : α → α → Int) (l : List α) : (jsSort cmp l).Perm l := by
  induction l with
  | nil => exact List.Perm.refl _
  | cons x xs ih => exact (jsInsert_perm cmp x (jsSort cmp xs)).trans (ih.cons x)

theorem mem_jsSort {cmp : α → α → Int} {l : List α} {a : α} :
    a ∈ jsSort cmp l ↔ a ∈ l :=
  (jsSort_perm cmp l).mem_iff

theorem mem_jsInsert {cmp : α → α → Int} {x : α} {l : List α} {a : α} :
    a ∈ jsInsert cmp x l ↔ a = x ∨ a ∈ l := by
  rw [(jsInsert_perm cmp x l).mem_iff, List.mem_cons]

theorem jsInsert_pairwise (cmp : α → α → Int) (x : α) (l : List α)
    (htot : ∀ y ∈ l, cmp x y ≤ 0 ∨ cmp y x ≤ 0)
    (htr : ∀ b ∈ l, ∀ c ∈ l, cmp x b ≤ 0 → cmp b c ≤ 0 → cmp x c ≤ 0)
    (hl : l.Pairwise fun a b => cmp a b ≤ 0) :
    (jsInsert cmp x l).Pairwise fun a b => cmp a b ≤ 0 := by
  induction l with
  | nil => simp [jsInsert]
  | cons y ys ih =>
    rw [jsInsert]
    rw [List.pairwise_cons] at hl
    obtain ⟨hy, hys⟩ := hl
    split
    · rename_i hxy
      refine List.Pairwise.cons ?_ (List.Pairwise.cons hy hys)
      intro z hz
      rcases List.mem_cons.mp hz with hzy | hzys
      · exact hzy ▸ hxy
      · exact htr y (List.mem_cons_self y ys) z (List.mem_cons_of_mem y hzys) hxy (hy z hzys)
    · rename_i hxy
      refine List.Pairwise.cons ?_ ?_
      · intro z hz
        rcases mem_jsInsert.mp hz with rfl | hzys
        · rcases htot y (List.mem_cons_self y ys) with h | h
          · exact absurd h hxy
          · exact h
        · exact hy z hzys
      · exact ih (fun z hz => htot z (List.mem_cons_of_mem y hz))
          (fun b hb c hc => htr b (List.mem_cons_of_mem y hb) c (List.mem_cons_of_mem y hc))
          hys

theorem jsSort_pairwise (cmp : α → α → Int) (l : List α)
    (htot : ∀ a ∈ l, ∀ b ∈ l, cmp a b ≤ 0 ∨ cmp b a ≤ 0)
    (htr : ∀ a ∈ l, ∀ b ∈ l, ∀ c ∈ l, cmp a b ≤ 0 → cmp b c ≤ 0 → cmp a c ≤ 0) :
    (jsSort cmp l).Pairwise fun a b => cmp a b ≤ 0 := by
  induction l with
  | nil => simp [jsSort]
  | cons x xs ih =>
    rw [jsSort]
    refine jsInsert_pairwise cmp x (jsSort cmp xs) ?_ ?_ ?_
    · intro y hy
      exact htot x (List.mem_cons_self x xs) y (List.mem_cons_of_mem x (mem_jsSort.mp hy))
    · intro b hb c hc
      exact htr x (List.mem_cons_self x xs) b (List.mem_cons_of_mem x (mem_jsSort.mp hb))
        c (List.mem_cons_of_mem x (mem_jsSort.mp hc))
    · exact ih (fun a ha b hb => htot a (List.mem_cons_of_mem x ha) b (List.mem_cons_of_mem x hb))
        (fun a ha b hb c hc => htr a (List.mem_cons_of_mem x ha) b (List.mem_cons_of_mem x hb)
          c (List.mem_cons_of_mem x hc))

/-! ### Lemmas about the modelled `localeCompare` -/

theorem localeCompare_le_iff (a b : String) :
    localeCompare a b ≤ 0 ↔ pKey a < pKey b ∨ (pKey a = pKey b ∧ cKey a ≤ cKey b) := by
  unfold localeCompare
  split_ifs with h1 h2 h3 h4
  · simp [h1]
  · constructor
    · intro h; exact absurd h (by norm_num)
    · rintro (h | ⟨h, _⟩)
      · exact absurd h h1
      · exact absurd (h ▸ h2) (lt_irrefl _)
  · have heq : pKey a = pKey b := le_antisymm (not_lt.mp h2) (not_lt.mp h1)
    simp [heq, le_of_lt h3]
  · have heq : pKey a = pKey b := le_antisymm (not_lt.mp h2) (not_lt.mp h1)
    constructor
    · intro h; exact absurd h (by norm_num)
    · rintro (h | ⟨_, h⟩)
      · exact absurd (heq ▸ h) (lt_irrefl _)
      · exact absurd h (not_le.mpr h4)
  · have heq : pKey a = pKey b := le_antisymm (not_lt.mp h2) (not_lt.mp h1)
    simp [heq, not_lt.mp h4]

theorem localeCompare_total (a b : String) :
    localeCompare a b ≤ 0 ∨ localeCompare b a ≤ 0 := by
  rw [localeCompare_le_iff, localeCompare_le_iff]
  rcases lt_trichotomy (pKey a) (pKey b) with h | h | h
  · exact Or.inl (Or.inl h)
  · rcases le_total (cKey a) (cKey b) with hc | hc
    · exact Or.inl (Or.inr ⟨h, hc⟩)
    · exact Or.inr (Or.inr ⟨h.symm, hc⟩)
  · exact Or.inr (Or.inl h)

theorem localeCompare_trans {a b c : String}
    (hab : localeCompare a b ≤ 0) (hbc : localeCompare b c ≤ 0) :
    localeCompare a c ≤ 0 := by
  rw [localeCompare_le_iff] at hab hbc ⊢
  rcases hab with hab | ⟨hab, hab'⟩
  · rcases hbc with hbc | ⟨hbc, _⟩
    · exact Or.inl (hab.trans hbc)
    · exact Or.inl (hbc ▸ hab)
  · rcases hbc with hbc | ⟨hbc, hbc'⟩
    · exact Or.inl (hab ▸ hbc)
    · exact Or.inr ⟨hab.trans hbc, hab'.trans hbc'⟩

/-! ### Helper lemmas about the controller -/

theorem scrapeFinish_loading (st : AppState) (out : ScrapeOutcome) :
    (scrapeFinish st out).loading = false := rfl

theorem scrapeFinish_serverStatus (st : AppState) (out : ScrapeOutcome) :
    (scrapeFinish st out).serverStatus = st.serverStatus := by
  unfold scrapeFinish
  rcases out with nf | e
  · rcases nf with _ | l
    · rfl
    · dsimp only; by_cases h : l.length > 0 <;> simp [h]
  · rcases e with ⟨resp, req, msg⟩
    rcases resp with _ | d
    · dsimp only; by_cases h : req <;> simp [h]
    · rfl

theorem scrapeFinish_setStatus (st : AppState) (s : ServerStatus) (out : ScrapeOutcome) :
    scrapeFinish { st with serverStatus := s } out
      = { scrapeFinish st out with serverStatus := s } := by
  unfold scrapeFinish
  rcases out with nf | e
  · rcases nf with _ | l
    · rfl
    · dsimp only; by_cases h : l.length > 0 <;> simp [h]
  · rcases e with ⟨resp, req, msg⟩
    rcases resp with _ | d
    · dsimp only; by_cases h : req <;> simp [h]
    · rfl

/-! ### Example articles used in the concrete parts of the claims -/

def mkItem (t a d : String) : NewsItem :=
  { title := t, author := a, date := d, source := "src",
    url := "http://example.com", imageUrl := none }

def articleA : NewsItem := mkItem "From A" "Ann" "2024-01-01"
def articleB : NewsItem := mkItem "From B" "Ben" "2024-01-02"

def itemTech : NewsItem := mkItem "New Tech Launch" "Alice" "2024-01-01"
def itemWeather : NewsItem := mkItem "Weather" "Techie Reporter" "2024-01-02"
def itemSports : NewsItem := mkItem "Sports Update" "Juan" "2024-01-03"

def itemJan : NewsItem := mkItem "one" "x" "2024-01-10"
def itemMar : NewsItem := mkItem "two" "y" "2024-03-01"
def itemFeb : NewsItem := mkItem "three" "z" "2024-02-15"

def itemBadDate : NewsItem := mkItem "U" "u" "not a date"

def itemBanana : NewsItem := mkItem "Banana" "x" "2024-01-01"
def itemApple : NewsItem := mkItem "apple" "y" "2024-01-02"
def itemCherry : NewsItem := mkItem "Cherry" "z" "2024-01-03"

/-! ### The claims -/

/-- C1: the claim requires last-submitted-wins, but `scrapeNews` carries no
request token: in the interleaving where `submit A` and `submit B` are both
begun (A first) and B's response arrives before A's, the stale A response is
applied last and overwrites B's result set, so the final `currentResultSet`
is A's, not B's.  This theorem evaluates the code at that failing input. -/
theorem c1_staleOverwrite :
    (scrapeFinish
      (scrapeFinish
        (scrapeBegin (setUrl (scrapeBegin (setUrl initialState "http://a.example")).1
          "http://b.example")).1
        (.ok (some [articleB])))
      (.ok (some [articleA]))).news = [articleA]
    ∧ ([articleA] : List NewsItem) ≠ [articleB] := by decide

/-- C2 counterexample: for the whitespace-only url `" "` the claim fails:
`submit` does issue a network call and does not set the validation
message (the guard `if (!url)` only catches the empty string). -/
theorem c2_counterexample :
    (scrapeNews { initialState with url := " " } (.ok (some []))).2 = true
    ∧ (scrapeNews { initialState with url := " " } (.ok (some []))).1.error
        ≠ validationMsg := by decide

/-- C2 amended: only for the exactly-empty url does `submit` fail
immediately with "Please enter a website URL", make no network call, and
leave `loading` and `currentResultSet` unchanged; a whitespace-only url
passes validation and proceeds to the network. -/
theorem c2_emptyUrlValidation (st : AppState) (out : ScrapeOutcome) :
    scrapeNews { st with url := "" } out
      = ({ st with url := "", error := validationMsg }, false) := rfl

/-- C3 counterexample: an article whose date fails to parse is not treated
as earliest: its NaN comparison is coerced to 0, so the stable sort leaves
it in front of a parseable (hence more-recent-comparable) article instead
of moving it to the end of the descending order. -/
theorem c3_counterexample :
    filteredAndSortedNews [itemBadDate, itemJan] "" .date = [itemBadDate, itemJan]
    ∧ ([itemBadDate, itemJan] : List NewsItem) ≠ [itemJan, itemBadDate]
    ∧ jsGetTime itemBadDate.date = none
    ∧ (jsGetTime itemJan.date).isSome = true := by decide

/-- C3 amended: for `sortKey = date`, when every retained article's date
parses the view is ordered descending by parsed date value (and is a
permutation of the retained articles), and the concrete example of the
claim holds; an
article whose date fails to parse compares equal to everything (the NaN
comparator result is coerced to 0), so the stable sort keeps it in its
original relative position rather than treating it as earliest. -/
theorem c3_dateSort :
    (∀ (rs : List NewsItem) (kw : String),
      (∀ a ∈ rs.filter (keepItem kw), (jsGetTime a.date).isSome = true) →
      ((filteredAndSortedNews rs kw .date).Pairwise fun a b =>
          (jsGetTime b.date).getD 0 ≤ (jsGetTime a.date).getD 0)
        ∧ (filteredAndSortedNews rs kw .date).Perm (rs.filter (keepItem kw)))
    ∧ filteredAndSortedNews [itemJan, itemMar, itemFeb] "" .date
        = [itemMar, itemFeb, itemJan] := by
  constructor
  · intro rs kw hall
    have hmem : ∀ a ∈ rs.filter (keepItem kw), ∃ t, jsGetTime a.date = some t := by
      intro a ha
      exact Option.isSome_iff_exists.mp (hall a ha)
    constructor
    · have hpw := jsSort_pairwise (newsCompare .date) (rs.filter (keepItem kw))
        (fun a ha b hb => by
          obtain ⟨ta, hta⟩ := hmem a ha
          obtain ⟨tb, htb⟩ := hmem b hb
          simp only [newsCompare, hta, htb]
          omega)
        (fun a ha b hb c hc hab hbc => by
          obtain ⟨ta, hta⟩ := hmem a ha
          obtain ⟨tb, htb⟩ := hmem b hb
          obtain ⟨tc, htc⟩ := hmem c hc
          simp only [newsCompare, hta, htb, htc] at hab hbc ⊢
          omega)
      refine List.Pairwise.imp_of_mem ?_ hpw
      intro a b ha hb hab
      obtain ⟨ta, hta⟩ := hmem a (mem_jsSort.mp ha)
      obtain ⟨tb, htb⟩ := hmem b (mem_jsSort.mp hb)
      simp only [newsCompare, hta, htb] at hab
      simp only [hta, htb, Option.getD_some]
      omega
    · exact jsSort_perm _ _
  · decide

/-- C3 amended, witness: the all-dates-parse hypothesis discharged on a
concrete list. -/
theorem c3_dateSort_witness :
    ((filteredAndSortedNews [itemJan, itemMar, itemFeb] "" .date).Pairwise fun a b =>
        (jsGetTime b.date).getD 0 ≤ (jsGetTime a.date).getD 0)
      ∧ (filteredAndSortedNews [itemJan, itemMar, itemFeb] "" .date).Perm
          ([itemJan, itemMar, itemFeb].filter (keepItem "")) :=
  c3_dateSort.1 [itemJan, itemMar, itemFeb] "" (by decide)

/-- C4: the error-classification precedence of `scrapeNews`: a structured
error body's text (with the generic fallback when the body lacks one or it
is falsy), else the no-response message when the request was sent, else
"Error: " followed by the underlying description. -/
theorem c4_errorPrecedence (st : AppState) (e : ApiError) (h : st.url ≠ "") :
    (∀ msg, e.response = some (some msg) → msg ≠ "" →
      (scrapeNews st (.err e)).1.error = msg)
    ∧ ((e.response = some none ∨ e.response = some (some "")) →
      (scrapeNews st (.err e)).1.error = scrapeFailMsg)
    ∧ (e.response = none → e.request = true →
      (scrapeNews st (.err e)).1.error = noResponseMsg)
    ∧ (e.response = none → e.request = false →
      (scrapeNews st (.err e)).1.error = "Error: " ++ e.message) := by
  refine ⟨?_, ?_, ?_, ?_⟩
  · intro msg hresp hmsg
    simp [scrapeNews, scrapeBegin, h, scrapeFinish, hresp, hmsg]
  · rintro (hresp | hresp) <;> simp [scrapeNews, scrapeBegin, h, scrapeFinish, hresp]
  · intro hresp hreq
    simp [scrapeNews, scrapeBegin, h, scrapeFinish, hresp, hreq]
  · intro hresp hreq
    simp [scrapeNews, scrapeBegin, h, scrapeFinish, hresp, hreq]

/-- C4 witness: all four classifications evaluated at concrete failures. -/
theorem c4_errorPrecedence_witness :
    (scrapeNews { initialState with url := "http://x" }
        (.err ⟨some (some "bad site"), false, "m"⟩)).1.error = "bad site"
    ∧ (scrapeNews { initialState with url := "http://x" }
        (.err ⟨some none, false, "m"⟩)).1.error = scrapeFailMsg
    ∧ (scrapeNews { initialState with url := "http://x" }
        (.err ⟨none, true, "m"⟩)).1.error = noResponseMsg
    ∧ (scrapeNews { initialState with url := "http://x" }
        (.err ⟨none, false, "m"⟩)).1.error = "Error: " ++ "m" :=
  ⟨(c4_errorPrecedence _ _ (by decide)).1 "bad site" rfl (by decide),
   (c4_errorPrecedence _ _ (by decide)).2.1 (Or.inl rfl),
   (c4_errorPrecedence _ _ (by decide)).2.2.1 rfl rfl,
   (c4_errorPrecedence _ _ (by decide)).2.2.2 rfl rfl⟩

/-- C5: a response with a present, non-empty article list replaces
`currentResultSet` exactly and leaves `errorMessage` cleared; a response
with an absent or empty list sets the no-articles message and leaves
`currentResultSet` empty. -/
theorem c5_responseHandling (st : AppState) (h : st.url ≠ "") :
    (∀ l : List NewsItem, l ≠ [] →
      (scrapeNews st (.ok (some l))).1.news = l
        ∧ (scrapeNews st (.ok (some l))).1.error = "")
    ∧ (∀ newsField : Option (List NewsItem), newsField = none ∨ newsField = some [] →
      (scrapeNews st (.ok newsField)).1.error = noNewsMsg
        ∧ (scrapeNews st (.ok newsField)).1.news = []) := by
  constructor
  · intro l hl
    have hlen : l.length > 0 := List.length_pos.mpr hl
    constructor <;> simp [scrapeNews, scrapeBegin, h, scrapeFinish, hlen]
  · rintro nf (rfl | rfl) <;>
      constructor <;> simp [scrapeNews, scrapeBegin, h, scrapeFinish]

/-- C5 witness: a two-article response and an empty response evaluated
concretely. -/
theorem c5_responseHandling_witness :
    (scrapeNews { initialState with url := "http://x" }
        (.ok (some [articleA, articleB]))).1.news = [articleA, articleB]
    ∧ (scrapeNews { initialState with url := "http://x" }
        (.ok (some [articleA, articleB]))).1.error = ""
    ∧ (scrapeNews { initialState with url := "http://x" }
        (.ok (some []))).1.error = noNewsMsg
    ∧ (scrapeNews { initialState with url := "http://x" }
        (.ok (some []))).1.news = [] :=
  ⟨((c5_responseHandling _ (by decide)).1 [articleA, articleB] (by decide)).1,
   ((c5_responseHandling _ (by decide)).1 [articleA, articleB] (by decide)).2,
   ((c5_responseHandling _ (by decide)).2 (some []) (Or.inr rfl)).1,
   ((c5_responseHandling _ (by decide)).2 (some []) (Or.inr rfl)).2⟩

/-- C6: an article appears in the derived view iff it is in the result set
and the keyword is empty or occurs case-insensitively in its title or its
author; concretely, keyword "tech" retains "New Tech Launch" and the
article authored by "Techie Reporter" but excludes "Sports Update" by
"Juan". -/
theorem c6_filter :
    (∀ (rs : List NewsItem) (kw : String) (sk : SortKey) (a : NewsItem),
      a ∈ filteredAndSortedNews rs kw sk ↔
        a ∈ rs ∧ (kw = ""
          ∨ jsIncludes (jsToLower a.title) (jsToLower kw) = true
          ∨ jsIncludes (jsToLower a.author) (jsToLower kw) = true))
    ∧ itemTech ∈ filteredAndSortedNews [itemTech, itemSports, itemWeather] "tech" .date
    ∧ itemWeather ∈ filteredAndSortedNews [itemTech, itemSports, itemWeather] "tech" .date
    ∧ itemSports ∉ filteredAndSortedNews [itemTech, itemSports, itemWeather] "tech" .date := by
  refine ⟨?_, by decide, by decide, by decide⟩
  intro rs kw sk a
  rw [filteredAndSortedNews, mem_jsSort, List.mem_filter, keepItem]
  simp only [Bool.or_eq_true, decide_eq_true_eq]
  tauto

/-- C7: for a non-empty url, `scrapeNews` terminates with `loading = false`
whatever the remote outcome (success, empty result, or any of the three
failure classes). -/
theorem c7_loadingCleared (st : AppState) (out : ScrapeOutcome) (h : st.url ≠ "") :
    (scrapeNews st out).1.loading = false := by
  simp [scrapeNews, scrapeBegin, h, scrapeFinish_loading]

/-- C7 witness. -/
theorem c7_loadingCleared_witness :
    (scrapeNews { initialState with url := "http://x" } (.ok none)).1.loading = false :=
  c7_loadingCleared _ _ (by decide)

/-- C8: a failed probe makes `connectivityStatus` offline and surfaces the
offline message, and no `scrapeNews` run ever changes
`connectivityStatus` — the offline status persists through later
submissions (their error-clearing only touches the shared message). -/
theorem c8_offlineSticky :
    (∀ st : AppState, (checkServer st false).serverStatus = .offline
      ∧ (checkServer st false).error = offlineMsg)
    ∧ (∀ (st : AppState) (out : ScrapeOutcome),
        (scrapeNews st out).1.serverStatus = st.serverStatus) := by
  constructor
  · intro st; exact ⟨rfl, rfl⟩
  · intro st out
    by_cases h : st.url = ""
    · simp [scrapeNews, scrapeBegin, h]
    · simp [scrapeNews, scrapeBegin, h, scrapeFinish_serverStatus]

/-- C10: `scrapeNews` is independent of `connectivityStatus`: changing only
`serverStatus` in the prior state changes none of `loading`,
`currentResultSet`, `errorMessage`, nor whether a network call is made. -/
theorem c10_statusIndependence (st : AppState) (s : ServerStatus) (out : ScrapeOutcome) :
    (scrapeNews { st with serverStatus := s } out).1.loading
        = (scrapeNews st out).1.loading
    ∧ (scrapeNews { st with serverStatus := s } out).1.news
        = (scrapeNews st out).1.news
    ∧ (scrapeNews { st with serverStatus := s } out).1.error
        = (scrapeNews st out).1.error
    ∧ (scrapeNews { st with serverStatus := s } out).2 = (scrapeNews st out).2 := by
  by_cases h : st.url = ""
  · simp [scrapeNews, scrapeBegin, h]
  · simp only [scrapeNews, scrapeBegin]
    have h2 : ({ st with serverStatus := s } : AppState).url = st.url := rfl
    simp only [h2, if_neg h]
    have : ({ st with serverStatus := s, loading := true, error := "", news := [] } : AppState)
        = { { st with loading := true, error := "", news := [] } with serverStatus := s } := rfl
    rw [this, scrapeFinish_setStatus]
    exact ⟨rfl, rfl, rfl, rfl⟩

/-- C9: for `sortKey = title` the view is ordered ascending by the
locale-aware comparison of titles (and is a permutation of the retained
articles); concretely ["Banana", "apple", "Cherry"] comes out as
["apple", "Banana", "Cherry"]. -/
theorem c9_titleSort :
    (∀ (rs : List NewsItem) (kw : String),
      ((filteredAndSortedNews rs kw .title).Pairwise fun a b =>
          localeCompare a.title b.title ≤ 0)
        ∧ (filteredAndSortedNews rs kw .title).Perm (rs.filter (keepItem kw)))
    ∧ filteredAndSortedNews [itemBanana, itemApple, itemCherry] "" .title
        = [itemApple, itemBanana, itemCherry] := by
  constructor
  · intro rs kw
    constructor
    · exact jsSort_pairwise (newsCompare .title) (rs.filter (keepItem kw))
        (fun a _ b _ => localeCompare_total a.title b.title)
        (fun a _ b _ c _ hab hbc => localeCompare_trans hab hbc)
    · exact jsSort_perm _ _
  · decide
